import Mathlib

/-!
Shallow embedding of the kajiya renderer frame driver (`src/renderer.rs`)
together with spec-modelled versions of its support subsystems (resource
state tracker, pipeline cache, transient resource pool, render graph
retirement) whose source modules are not part of this repository snapshot.
Machine integers are modelled as `Nat` with explicit `% 2^32` where the
source relies on `u32` wraparound.
-/

namespace Kajiya

/-- `vk_sync::AccessType` values used by `renderer.rs` (a closed subset of
the vk-sync access categories that the file mentions). -/
inductive AccessType where
  | Nothing
  | ComputeShaderWrite
  | AnyShaderReadSampledImageOrUniformTexelBuffer
  | ComputeShaderReadSampledImageOrUniformTexelBuffer
  | TransferWrite
deriving DecidableEq, Repr

/-- Commands recorded into the frame's command buffer / submission queue,
abstracting the Vulkan calls made by `Renderer::draw_frame` and its helpers. -/
inductive Cmd where
  | beginCommandBuffer
  | imageBarrier (image : Nat) (prevAccess nextAccess : AccessType)
  | bindPipeline (handle : Nat)
  | bindDescriptorSet (setIndex : Nat) (writes : List Nat)
  | dispatch (x y z : Nat)
  | rgExecute
  | blit (image : Nat)
  | releaseResources
  | endCommandBuffer
  | submit
  | present
deriving DecidableEq, Repr

/-- `pub const SDF_DIM: u32 = 256;` -/
def SDF_DIM : Nat := 256

/-- `LocalImageStateTracker` (declared in the missing `state_tracker`
module): a per-image record of the last known access type, bound to one
raw image and one command buffer. -/
structure LocalImageStateTracker where
  resource : Nat
  current_state : AccessType
deriving DecidableEq, Repr

/-- Modelled from the spec: the `state_tracker` module is not under `src/`;
per section 4.4, `transition` is a no-op when old and new states are
identical, and otherwise emits exactly one barrier whose source access
derives from the old state and destination access from the new state,
recording the new state as current. -/
def LocalImageStateTracker.transition (t : LocalImageStateTracker)
    (new_access : AccessType) : LocalImageStateTracker × List Cmd :=
  if t.current_state = new_access then
    (t, [])
  else
    ({ t with current_state := new_access },
     [Cmd.imageBarrier t.resource t.current_state new_access])

/-- A compiled pipeline object: an identity (distinguishing distinct
compilations) plus the reflected descriptor-set binding layout
(`set_layout_info` in `ShaderPipelineCommon`), one list of present binding
indices per set. -/
structure CompiledPipeline where
  objId : Nat
  set_layout_info : List (List Nat)
deriving DecidableEq, Repr

/-- Modelled from the spec: the `pipeline_cache` module is not under `src/`;
per section 4.5, entries are registered lazily (no compilation) and `get`
compiles on first call, returning the cached object thereafter. `entries`
holds the registered (shader identity, configuration identity) pairs,
indexed by handle; `compiled` is the parallel cache of compiled objects;
`nextObjId` counts compilations (each compilation yields a fresh object
identity); `reflect` is the external shader-loading collaborator supplying
reflected binding metadata for a shader identity. -/
structure PipelineCache where
  entries : List (Nat × Nat)
  compiled : List (Option CompiledPipeline)
  nextObjId : Nat
  reflect : Nat → List (List Nat)

/-- Modelled from the spec: lazy registration — append the (shader,
configuration) pair, compile nothing, return the fresh handle. -/
def PipelineCache.register_compute (pc : PipelineCache) (shader cfg : Nat) :
    PipelineCache × Nat :=
  ({ pc with
      entries := pc.entries ++ [(shader, cfg)],
      compiled := pc.compiled ++ [none] },
   pc.entries.length)

/-- Modelled from the spec: `get` triggers compilation on the first call for
a handle and returns the cached object thereafter. Returns the pipeline,
the updated cache, and the number of compilations performed (0 or 1). -/
def PipelineCache.get_compute (pc : PipelineCache) (handle : Nat) :
    CompiledPipeline × PipelineCache × Nat :=
  match pc.compiled.getD handle none with
  | some p => (p, pc, 0)
  | none =>
    let entry := pc.entries.getD handle (0, 0)
    let p : CompiledPipeline := ⟨pc.nextObjId, pc.reflect entry.1⟩
    (p,
     { pc with
        compiled := pc.compiled.set handle (some p),
        nextObjId := pc.nextObjId + 1 },
     1)

/-- Compile every handle of a list, in order, threading the cache. -/
def PipelineCache.compile_all (pc : PipelineCache) (hs : List Nat) :
    PipelineCache :=
  hs.foldl (fun acc h => (acc.get_compute h).2.1) pc

/-- Modelled from the spec: `prepare_frame` is the per-frame
synchronization point that finishes any deferred compilation before the
frame's commands are recorded, ensuring `get` never blocks (compiles)
mid-recording: it compiles every registered entry. -/
def PipelineCache.prepare_frame (pc : PipelineCache) : PipelineCache :=
  pc.compile_all (List.range pc.compiled.length)

/-- Modelled from the spec: the `transient_resource_cache` module is not
under `src/`; per section 4.6 the pool is a descriptor-keyed free list.
Resources are identified by allocation order (`nextId` counts allocations,
so ids below `nextId` are exactly the GPU allocations made so far);
`free_list` holds (descriptor, resource) pairs available for reuse and
`checked_out` the pairs handed out during the current generation. -/
structure TransientResourceCache where
  free_list : List (Nat × Nat)
  checked_out : List (Nat × Nat)
  nextId : Nat
deriving DecidableEq, Repr

/-- Remove the first free-list entry with the given descriptor, returning
its resource and the remaining list. -/
def takeFirst (d : Nat) : List (Nat × Nat) → Option (Nat × List (Nat × Nat))
  | [] => none
  | e :: rest =>
    if e.1 = d then some (e.2, rest)
    else
      match takeFirst d rest with
      | some (r, l) => some (r, e :: l)
      | none => none

/-- Modelled from the spec: `acquire` reuses a free entry whose descriptor
matches, else allocates new GPU memory (a fresh id). -/
def TransientResourceCache.acquire (p : TransientResourceCache) (d : Nat) :
    Nat × TransientResourceCache :=
  match takeFirst d p.free_list with
  | some (r, fl) =>
    (r, { p with free_list := fl, checked_out := p.checked_out ++ [(d, r)] })
  | none =>
    (p.nextId,
     { p with checked_out := p.checked_out ++ [(d, p.nextId)],
              nextId := p.nextId + 1 })

/-- Modelled from the spec: `release_all` returns every resource checked out
during the generation to the free list; it does not deallocate GPU memory
(`nextId`, the allocation count, is untouched), only marks entries
available for the next acquire with a matching descriptor. Returned
entries go to the front, where `acquire` looks first. -/
def TransientResourceCache.release_all (p : TransientResourceCache) :
    TransientResourceCache :=
  { free_list := p.checked_out ++ p.free_list, checked_out := [],
    nextId := p.nextId }

/-- Acquire every descriptor of a compiled graph shape, in order. -/
def TransientResourceCache.acquire_list (p : TransientResourceCache) :
    List Nat → TransientResourceCache
  | [] => p
  | d :: ds => ((p.acquire d).2).acquire_list ds

/-- One graph execution against the pool: acquire the graph shape's
transient resources, then release the generation. -/
def TransientResourceCache.run_frame (p : TransientResourceCache)
    (ds : List Nat) : TransientResourceCache :=
  (p.acquire_list ds).release_all

/-- Modelled from the spec: the `rg` module is not under `src/`; per
section 4.3, after execution any exported handle's final physical resource
and its last access type are exposed to the caller (`get_image` returns
the pair), and the retired graph's sole remaining responsibility is to
release transient resources back to the pool. `exported` maps an exported
handle to (raw image, last access type). -/
structure RetiredRenderGraph where
  exported : List (Nat × AccessType)
deriving DecidableEq, Repr

/-- `retired_rg.get_image(handle)` returns the final physical image together
with its last access type. -/
def RetiredRenderGraph.get_image (rg : RetiredRenderGraph) (handle : Nat) :
    Nat × AccessType :=
  rg.exported.getD handle (0, AccessType.Nothing)

/-- Modelled from the spec: a compiled render graph; execution yields its
retired graph (the pass callbacks' own recorded commands are outside this
file's claims and are abstracted into the single `rgExecute` event). -/
structure CompiledRenderGraph where
  retired : RetiredRenderGraph
deriving DecidableEq, Repr

/-- `bind_descriptor_set` (renderer.rs): looks up the requested set in the
pipeline's reflected `set_layout_info`; if the set index does not exist it
returns without recording anything; otherwise it writes exactly the
bindings whose index appears in the shader's reflected set info and records
one descriptor-set bind. `numBindings` is the length of the `bindings`
slice passed by the caller (the bindings' payloads do not affect which
writes happen, only their indices do). -/
def bind_descriptor_set (pipeline : CompiledPipeline) (set_index : Nat)
    (numBindings : Nat) : List Cmd :=
  match pipeline.set_layout_info.get? set_index with
  | none => []
  | some info =>
    [Cmd.bindDescriptorSet set_index
      ((List.range numBindings).filter (fun i => decide (i ∈ info)))]

/-- `Renderer::bind_frame_constants` (renderer.rs): binds the frame
descriptor set at set index 2 iff `set_layout_info.get(2)` exists and is
non-empty (`.map(|set| !set.is_empty()).unwrap_or_default()`). The frame
descriptor set was written at creation time, so the bind carries no
writes. -/
def bind_frame_constants (pipeline : CompiledPipeline) : List Cmd :=
  if ((pipeline.set_layout_info.get? 2).map (fun s => !s.isEmpty)).getD false
  then [Cmd.bindDescriptorSet 2 []]
  else []

/-- The fields of `Renderer` that the claims are about. `frame_idx` is the
`u32` frame counter (kept as its numeric value, below `2^32`); `sdf_img`
is the raw handle of the persistent SDF volume image; the three handles
are the compute-pipeline handles registered in `Renderer::new`. -/
structure Renderer where
  pipeline_cache : PipelineCache
  frame_idx : Nat
  sdf_img : Nat
  gen_empty_sdf : Nat
  edit_sdf : Nat
  sdf_raymarch_gbuffer : Nat
  compiled_rg : Option CompiledRenderGraph
  rg_output_tex : Option Nat

/-- Shader identities for the shader source paths registered by
`Renderer::new` (opaque codes standing for the HLSL paths). -/
def gen_empty_sdf_shader : Nat := 0

def edit_sdf_shader : Nat := 1

def sdf_raymarch_gbuffer_shader : Nat := 2

/-- The shared `sdf_pipeline_desc` configuration used for all three compute
registrations. -/
def sdf_pipeline_cfg : Nat := 0

/-- `Renderer::new` (the fields the claims are about): registers the three
SDF compute shaders with the pipeline cache (in source order), sets
`frame_idx: !0` (`u32::MAX = 2^32 - 1`), and leaves `compiled_rg` and
`rg_output_tex` as `None`. The raw SDF image handle and the shader
reflection collaborator are parameters (they come from the GPU device and
shader-loading layers). -/
def Renderer.new (reflect : Nat → List (List Nat)) (sdfImg : Nat) : Renderer :=
  let pc0 : PipelineCache := ⟨[], [], 0, reflect⟩
  let (pc1, h_gen_empty) := pc0.register_compute gen_empty_sdf_shader sdf_pipeline_cfg
  let (pc2, h_edit) := pc1.register_compute edit_sdf_shader sdf_pipeline_cfg
  let (pc3, h_raymarch) :=
    pc2.register_compute sdf_raymarch_gbuffer_shader sdf_pipeline_cfg
  { pipeline_cache := pc3
    frame_idx := 2 ^ 32 - 1
    sdf_img := sdfImg
    gen_empty_sdf := h_gen_empty
    edit_sdf := h_edit
    sdf_raymarch_gbuffer := h_raymarch
    compiled_rg := none
    rg_output_tex := none }

/-- The access type with which `Renderer::prepare_render_graph` imports
`sdf_img` into the render graph (`rg.import_image(self.sdf_img.clone(),
vk_sync::AccessType::ComputeShaderWrite)`). -/
def sdf_import_initial_access : AccessType := AccessType.ComputeShaderWrite

/-- The access type `draw_frame` transitions `sdf_img` to before the SDF
edit dispatch (`sdf_img_tracker.transition(vk_sync::AccessType::ComputeShaderWrite)`). -/
def sdf_transition_access : AccessType := AccessType.ComputeShaderWrite

/-- The commands recorded by the `if let Some((rg, rg_output_img)) = ...`
block of `draw_frame`: execute the compiled graph, look up the exported
image and its last access type from the retired graph, record a barrier
from exactly that access type to
`AnyShaderReadSampledImageOrUniformTexelBuffer`, blit to the swapchain,
then release the retired graph's transient resources. -/
def rg_block_cmds (g : CompiledRenderGraph) (out : Nat) : List Cmd :=
  let gotImg := g.retired.get_image out
  [Cmd.rgExecute,
   Cmd.imageBarrier gotImg.1 gotImg.2
     AccessType.AnyShaderReadSampledImageOrUniformTexelBuffer,
   Cmd.blit gotImg.1,
   Cmd.releaseResources]

/-- The commands `draw_frame` records before the render-graph block: begin
the command buffer, the SDF tracker's transition to `ComputeShaderWrite`
(with initial state `Nothing` on frame 0), and the SDF edit dispatch —
binding `gen_empty_sdf` on frame 0 and `edit_sdf` otherwise, its set-0
descriptors (one binding, the SDF image view) and the frame constants. -/
def draw_frame_head_cmds (r : Renderer) : List Cmd :=
  let frame_idx := (r.frame_idx + 1) % 2 ^ 32
  let tracker0 : LocalImageStateTracker :=
    ⟨r.sdf_img,
     if frame_idx = 0 then AccessType.Nothing
     else AccessType.AnyShaderReadSampledImageOrUniformTexelBuffer⟩
  let handle := if frame_idx = 0 then r.gen_empty_sdf else r.edit_sdf
  let got := r.pipeline_cache.get_compute handle
  [Cmd.beginCommandBuffer]
    ++ (tracker0.transition AccessType.ComputeShaderWrite).2
    ++ [Cmd.bindPipeline handle]
    ++ bind_descriptor_set got.1 0 1
    ++ bind_frame_constants got.1
    ++ [Cmd.dispatch (SDF_DIM / 4) (SDF_DIM / 4) (SDF_DIM / 4)]

/-- `Renderer::draw_frame` (renderer.rs), as a state transition plus the
trace of recorded commands: advances `frame_idx` with
`overflowing_add(1)` (wrapping, never panicking), creates the SDF image
state tracker with initial access `Nothing` on frame 0 and
`AnyShaderReadSampledImageOrUniformTexelBuffer` otherwise, begins the
command buffer, transitions the SDF image to `ComputeShaderWrite`,
dispatches `gen_empty_sdf` on frame 0 and `edit_sdf` otherwise, then — only
when both `compiled_rg` and `rg_output_tex` were present (both are removed
with `Option::take` regardless) — executes the graph, barriers the
exported image from its returned access type, blits it to the swapchain
and releases the retired graph's resources; finally ends the command
buffer, submits, and presents. -/
def Renderer.draw_frame (r : Renderer) : Renderer × List Cmd :=
  let frame_idx := (r.frame_idx + 1) % 2 ^ 32
  let handle := if frame_idx = 0 then r.gen_empty_sdf else r.edit_sdf
  let got := r.pipeline_cache.get_compute handle
  let rgCmds :=
    match r.compiled_rg, r.rg_output_tex with
    | some g, some out => rg_block_cmds g out
    | _, _ => []
  ({ r with
      frame_idx := frame_idx,
      pipeline_cache := got.2.1,
      compiled_rg := none,
      rg_output_tex := none },
   draw_frame_head_cmds r
     ++ rgCmds
     ++ [Cmd.endCommandBuffer, Cmd.submit, Cmd.present])

/-- `cube_indices` (renderer.rs): cube corner codes where bits 0, 1, 2 map
to plus or minus X, Y, Z; two triangles per face, six faces. -/
def cube_indices : List Nat :=
  (([(1, 2, 4), (2, 4, 1), (4, 1, 2)] : List (Nat × Nat × Nat)).map
    (fun t =>
      let ndim := t.1
      let dim0 := t.2.1
      let dim1 := t.2.2
      (([(0, dim1, dim0), (ndim, dim0, dim1)] : List (Nat × Nat × Nat)).map
        (fun s =>
          let nbit := s.1
          let d0 := s.2.1
          let d1 := s.2.2
          [nbit, nbit + d0, nbit + d1, nbit + d1, nbit + d0, nbit + d0 + d1])).flatten)).flatten

/-- A concrete shader-reflection table used to instantiate the theorems on
concrete inputs. -/
def reflectW : Nat → List (List Nat) := fun _ => [[0], [], [0]]

/-- A concrete retired graph exporting handle 0 as image 7 last accessed as
`ComputeShaderWrite`. -/
def rgW : CompiledRenderGraph :=
  ⟨⟨[(7, AccessType.ComputeShaderWrite)]⟩⟩

/-- A concrete renderer holding a compiled graph and an exported output
handle, as after `prepare_frame`. -/
def rendererW : Renderer :=
  { Renderer.new reflectW 3 with
      compiled_rg := some rgW, rg_output_tex := some 0 }

section Theorems

/-- The tracker's transition emits either nothing or exactly the one
barrier from its current state to the requested one. -/
theorem transition_cases (t : LocalImageStateTracker) (a : AccessType) :
    (t.transition a).2 = [] ∨
      (t.transition a).2 = [Cmd.imageBarrier t.resource t.current_state a] := by
  unfold LocalImageStateTracker.transition
  split <;> simp

/-- `bind_descriptor_set` records either nothing or exactly one bind of the
requested set. -/
theorem bind_descriptor_set_cases (p : CompiledPipeline) (i n : Nat) :
    bind_descriptor_set p i n = [] ∨
      ∃ w, bind_descriptor_set p i n = [Cmd.bindDescriptorSet i w] := by
  unfold bind_descriptor_set
  cases p.set_layout_info.get? i <;> simp

/-- `bind_frame_constants` records either nothing or exactly one bind of
set 2. -/
theorem bind_frame_constants_cases (p : CompiledPipeline) :
    bind_frame_constants p = [] ∨
      bind_frame_constants p = [Cmd.bindDescriptorSet 2 []] := by
  unfold bind_frame_constants
  split <;> simp

/-- **C10**: `cube_indices()` returns exactly 36 indices (6 faces, 2
triangles each, 3 vertices each) and every element is a valid 3-bit
cube-corner code, i.e. less than 8. -/
theorem cube_indices_length_and_bounds :
    cube_indices.length = 36 ∧ cube_indices.all (fun i => i < 8) = true := by
  decide

/-- **C2**: transitioning a tracked resource to an access type identical to
its currently recorded state emits zero barriers and leaves the tracker
unchanged; in particular a resource imported with initial access
`ComputeShaderWrite` (the access `prepare_render_graph` declares for
`sdf_img`, which equals the access `draw_frame` transitioned it to) and
then accessed with that same access emits zero barriers. -/
theorem transition_identical_noop :
    (∀ (t : LocalImageStateTracker) (a : AccessType),
        t.current_state = a → t.transition a = (t, [])) ∧
    sdf_transition_access = sdf_import_initial_access ∧
    (∀ img : Nat,
        (LocalImageStateTracker.mk img sdf_import_initial_access).transition
            sdf_import_initial_access =
          (LocalImageStateTracker.mk img sdf_import_initial_access, [])) := by
  refine ⟨fun t a h => ?_, rfl, fun img => ?_⟩
  · simp [LocalImageStateTracker.transition, h]
  · simp [LocalImageStateTracker.transition]

/-- Witness for C2 at a concrete tracker. -/
theorem transition_identical_noop_witness :
    (LocalImageStateTracker.mk 5 AccessType.ComputeShaderWrite).transition
        AccessType.ComputeShaderWrite =
      (LocalImageStateTracker.mk 5 AccessType.ComputeShaderWrite, []) :=
  transition_identical_noop.1
    (LocalImageStateTracker.mk 5 AccessType.ComputeShaderWrite)
    AccessType.ComputeShaderWrite rfl

/-- **C4**: every transition to a different state emits exactly one barrier
whose source access derives from the old state and destination access from
the new state, recording the new state as current; hence a resource
transitioned A then B then A across three passes yields exactly two
barriers, one for A to B and one for B to A. -/
theorem tracker_roundtrip_two_barriers :
    (∀ (t : LocalImageStateTracker) (a : AccessType),
        t.current_state ≠ a →
          t.transition a =
            (⟨t.resource, a⟩,
             [Cmd.imageBarrier t.resource t.current_state a])) ∧
    (∀ (img : Nat) (A B : AccessType), A ≠ B →
        ((LocalImageStateTracker.mk img A).transition B).2 =
            [Cmd.imageBarrier img A B] ∧
        ((((LocalImageStateTracker.mk img A).transition B).1).transition A).2 =
            [Cmd.imageBarrier img B A] ∧
        ((((LocalImageStateTracker.mk img A).transition B).1).transition
              A).1.current_state = A ∧
        (((LocalImageStateTracker.mk img A).transition B).2 ++
            ((((LocalImageStateTracker.mk img A).transition B).1).transition
              A).2).length = 2) := by
  constructor
  · intro t a h
    simp [LocalImageStateTracker.transition, h]
  · intro img A B h
    simp [LocalImageStateTracker.transition, h, Ne.symm h]

/-- Witness for C4 at a concrete image and pair of distinct access types. -/
theorem tracker_roundtrip_two_barriers_witness :
    ((LocalImageStateTracker.mk 3 AccessType.Nothing).transition
        AccessType.ComputeShaderWrite).2 =
      [Cmd.imageBarrier 3 AccessType.Nothing AccessType.ComputeShaderWrite] :=
  (tracker_roundtrip_two_barriers.2 3 AccessType.Nothing
    AccessType.ComputeShaderWrite (by decide)).1

/-- **C7**: descriptor-set binding consults the reflected layout:
`bind_frame_constants` records a bind of set 2 iff `set_layout_info` has a
non-empty entry at index 2; `bind_descriptor_set` records nothing when the
requested set index does not exist in the pipeline layout, and otherwise
writes exactly the binding indices that appear in the shader's reflected
set info. -/
theorem bind_skips_unused_sets :
    (∀ p : CompiledPipeline,
        bind_frame_constants p = [Cmd.bindDescriptorSet 2 []] ↔
          ∃ s, p.set_layout_info.get? 2 = some s ∧ s ≠ []) ∧
    (∀ (p : CompiledPipeline) (i n : Nat),
        p.set_layout_info.get? i = none → bind_descriptor_set p i n = []) ∧
    (∀ (p : CompiledPipeline) (i n : Nat) (info : List Nat),
        p.set_layout_info.get? i = some info →
          bind_descriptor_set p i n =
            [Cmd.bindDescriptorSet i
              ((List.range n).filter (fun j => decide (j ∈ info)))] ∧
          ∀ j, j ∈ (List.range n).filter (fun j => decide (j ∈ info)) ↔
            j < n ∧ j ∈ info) := by
  refine ⟨fun p => ?_, fun p i n h => ?_, fun p i n info h => ⟨?_, fun j => ?_⟩⟩
  · unfold bind_frame_constants
    cases hs : p.set_layout_info.get? 2 with
    | none => simp
    | some s => cases s <;> simp
  · unfold bind_descriptor_set
    rw [h]
  · unfold bind_descriptor_set
    rw [h]
  · simp [List.mem_filter, List.mem_range]

/-- Witness for C7 at a concrete pipeline layout: set 1 is empty so frame
constants are not bound at a pipeline whose set 2 is missing, a
nonexistent set records nothing, and writes are filtered to the reflected
binding indices. -/
theorem bind_skips_unused_sets_witness :
    bind_frame_constants (CompiledPipeline.mk 0 [[0], [], [0, 2]]) =
        [Cmd.bindDescriptorSet 2 []] ∧
      bind_descriptor_set (CompiledPipeline.mk 0 [[0]]) 5 1 = [] ∧
      bind_descriptor_set (CompiledPipeline.mk 0 [[0], [], [0, 2]]) 2 3 =
        [Cmd.bindDescriptorSet 2 [0, 2]] :=
  ⟨(bind_skips_unused_sets.1 (CompiledPipeline.mk 0 [[0], [], [0, 2]])).2
      ⟨[0, 2], rfl, by decide⟩,
   bind_skips_unused_sets.2.1 (CompiledPipeline.mk 0 [[0]]) 5 1 rfl,
   by
    have h := (bind_skips_unused_sets.2.2
      (CompiledPipeline.mk 0 [[0], [], [0, 2]]) 2 3 [0, 2] rfl).1
    rw [h]
    decide⟩

/-- `get` does not change the number of cache slots. -/
theorem get_compute_length (pc : PipelineCache) (h : Nat) :
    ((pc.get_compute h).2.1).compiled.length = pc.compiled.length := by
  unfold PipelineCache.get_compute
  cases hc : pc.compiled.getD h none <;> simp

/-- `get` never evicts an already-compiled entry. -/
theorem get_compute_preserves (pc : PipelineCache) (h h' : Nat)
    (p : CompiledPipeline) (hp : pc.compiled.getD h' none = some p) :
    ((pc.get_compute h).2.1).compiled.getD h' none = some p := by
  unfold PipelineCache.get_compute
  cases hc : pc.compiled.getD h none with
  | some q => simpa using hp
  | none =>
    by_cases he : h = h'
    · subst he
      rw [hc] at hp
      exact Option.noConfusion hp
    · simp only [List.getD, List.get?_eq_getElem?] at hp ⊢
      rw [List.getElem?_set_ne he]
      exact hp

/-- After `get`, the requested handle is compiled. -/
theorem get_compute_compiles_self (pc : PipelineCache) (h : Nat)
    (hlt : h < pc.compiled.length) :
    ∃ p, ((pc.get_compute h).2.1).compiled.getD h none = some p := by
  unfold PipelineCache.get_compute
  cases hc : pc.compiled.getD h none with
  | some q => exact ⟨q, by simpa using hc⟩
  | none =>
    exact ⟨⟨pc.nextObjId, pc.reflect (pc.entries.getD h (0, 0)).1⟩, by
      simp [List.getD, List.getElem?_set_self, hlt]⟩

/-- `compile_all` does not change the number of cache slots. -/
theorem compile_all_length :
    ∀ (hs : List Nat) (pc : PipelineCache),
      (pc.compile_all hs).compiled.length = pc.compiled.length := by
  intro hs
  induction hs with
  | nil => intro pc; rfl
  | cons h0 hs ih =>
    intro pc
    show (((pc.get_compute h0).2.1).compile_all hs).compiled.length = _
    rw [ih, get_compute_length]

/-- `compile_all` never evicts an already-compiled entry. -/
theorem compile_all_preserves :
    ∀ (hs : List Nat) (pc : PipelineCache) (h' : Nat) (p : CompiledPipeline),
      pc.compiled.getD h' none = some p →
        (pc.compile_all hs).compiled.getD h' none = some p := by
  intro hs
  induction hs with
  | nil => intro pc h' p hp; exact hp
  | cons h0 hs ih =>
    intro pc h' p hp
    exact ih _ h' p (get_compute_preserves pc h0 h' p hp)

/-- `compile_all` compiles every in-range handle it visits. -/
theorem compile_all_compiles :
    ∀ (hs : List Nat) (pc : PipelineCache) (h : Nat),
      h ∈ hs → h < pc.compiled.length →
        ∃ p, (pc.compile_all hs).compiled.getD h none = some p := by
  intro hs
  induction hs with
  | nil => intro pc h hmem; exact absurd hmem (List.not_mem_nil h)
  | cons h0 hs ih =>
    intro pc h hmem hlt
    by_cases heq : h = h0
    · subst heq
      obtain ⟨p, hp⟩ := get_compute_compiles_self pc h hlt
      exact ⟨p, compile_all_preserves hs _ h p hp⟩
    · have hmem' : h ∈ hs := by
        rcases List.mem_cons.1 hmem with h1 | h1
        · exact absurd h1 heq
        · exact h1
      have hlt' : h < ((pc.get_compute h0).2.1).compiled.length := by
        rw [get_compute_length]; exact hlt
      exact ih _ h hmem' hlt'

/-- **C5**: pipeline-cache lookups are idempotent after the first call:
registration is lazy (appends an uncompiled entry, compiles nothing), the
first `get` for a handle compiles exactly once, and every subsequent `get`
for the same handle returns the identical cached compiled pipeline object
with zero compilations and an unchanged cache; moreover after
`prepare_frame` (called before every frame's recording) every registered
handle's `get` performs zero compilations and leaves the cache unchanged —
so the per-frame gets of `draw_frame` return cached objects after
frame 0. -/
theorem pipeline_cache_get_idempotent :
    (∀ (pc : PipelineCache) (s c : Nat),
        (pc.register_compute s c).1.compiled = pc.compiled ++ [none] ∧
        (pc.register_compute s c).1.nextObjId = pc.nextObjId ∧
        (pc.register_compute s c).2 = pc.entries.length) ∧
    (∀ (pc : PipelineCache) (h : Nat) (p : CompiledPipeline),
        pc.compiled.getD h none = some p →
          pc.get_compute h = (p, pc, 0)) ∧
    (∀ (pc : PipelineCache) (h : Nat),
        pc.compiled.getD h none = none →
          (pc.get_compute h).2.2 = 1) ∧
    (∀ (pc : PipelineCache) (h : Nat),
        h < pc.compiled.length →
          ((pc.get_compute h).2.1.get_compute h).1 = (pc.get_compute h).1 ∧
          ((pc.get_compute h).2.1.get_compute h).2.2 = 0 ∧
          ((pc.get_compute h).2.1.get_compute h).2.1.compiled =
            (pc.get_compute h).2.1.compiled ∧
          ((pc.get_compute h).2.1.get_compute h).2.1.nextObjId =
            (pc.get_compute h).2.1.nextObjId) ∧
    (∀ (pc : PipelineCache) (h : Nat),
        h < pc.compiled.length →
          ((pc.prepare_frame).get_compute h).2.2 = 0 ∧
          ((pc.prepare_frame).get_compute h).2.1 = pc.prepare_frame) := by
  refine ⟨fun pc s c => ⟨rfl, rfl, rfl⟩, fun pc h p hp => ?_,
    fun pc h hn => ?_, fun pc h hlt => ?_, fun pc h hlt => ?_⟩
  · unfold PipelineCache.get_compute
    rw [hp]
  · unfold PipelineCache.get_compute
    rw [hn]
  · cases hc : pc.compiled.getD h none with
    | some p =>
      have h1 : pc.get_compute h = (p, pc, 0) := by
        unfold PipelineCache.get_compute
        rw [hc]
      simp [h1]
    | none =>
      have h1 : pc.get_compute h =
          (⟨pc.nextObjId, pc.reflect (pc.entries.getD h (0, 0)).1⟩,
           { pc with
              compiled := pc.compiled.set h
                (some ⟨pc.nextObjId, pc.reflect (pc.entries.getD h (0, 0)).1⟩),
              nextObjId := pc.nextObjId + 1 },
           1) := by
        unfold PipelineCache.get_compute
        rw [hc]
      have h2 : (pc.compiled.set h
          (some ⟨pc.nextObjId,
            pc.reflect (pc.entries.getD h (0, 0)).1⟩)).getD h none =
          some ⟨pc.nextObjId, pc.reflect (pc.entries.getD h (0, 0)).1⟩ := by
        simp [List.getD, List.getElem?_set_self, hlt]
      rw [h1]
      simp only
      unfold PipelineCache.get_compute
      rw [h2]
      simp
  · obtain ⟨p, hp⟩ := compile_all_compiles (List.range pc.compiled.length) pc h
      (List.mem_range.2 hlt) hlt
    have hg : (pc.prepare_frame).get_compute h = (p, pc.prepare_frame, 0) := by
      unfold PipelineCache.get_compute
      rw [show (pc.prepare_frame).compiled.getD h none = some p from hp]
    rw [hg]
    exact ⟨rfl, rfl⟩

/-- Witness for C5 at a concrete cache: register a shader, get twice; the
second get returns the identical object with zero compilations. -/
theorem pipeline_cache_get_idempotent_witness :
    ((((PipelineCache.mk [] [] 0 reflectW).register_compute 0
          0).1.get_compute 0).2.1.get_compute 0).2.2 = 0 :=
  (pipeline_cache_get_idempotent.2.2.2.1
    ((PipelineCache.mk [] [] 0 reflectW).register_compute 0 0).1 0
    (by simp [PipelineCache.register_compute])).2.1

/-- `takeFirst` fails exactly when no free entry carries the descriptor. -/
theorem takeFirst_eq_none (d : Nat) (l : List (Nat × Nat)) :
    takeFirst d l = none ↔ d ∉ l.map Prod.fst := by
  induction l with
  | nil => simp [takeFirst]
  | cons e rest ih =>
    by_cases he : e.1 = d
    · simp [takeFirst, he]
    · cases htf : takeFirst d rest with
      | some v =>
        have hmem : d ∈ rest.map Prod.fst := by
          by_contra hn
          rw [ih.2 hn] at htf
          exact Option.noConfusion htf
        simp [takeFirst, he, htf, Ne.symm he]
        simpa using hmem
      | none => simp [takeFirst, he, htf, Ne.symm he, ih.1 htf]

/-- A successful `takeFirst` removes exactly one entry with the requested
descriptor, as a multiset of descriptors. -/
theorem takeFirst_some_multiset (d : Nat) :
    ∀ (l : List (Nat × Nat)) (r : Nat) (l' : List (Nat × Nat)),
      takeFirst d l = some (r, l') →
        (l.map Prod.fst : Multiset Nat) =
          d ::ₘ (l'.map Prod.fst : Multiset Nat) := by
  intro l
  induction l with
  | nil => intro r l' h; simp [takeFirst] at h
  | cons e rest ih =>
    intro r l' h
    by_cases he : e.1 = d
    · simp [takeFirst, he] at h
      simp [← h.2, he]
    · simp [takeFirst, he] at h
      cases htf : takeFirst d rest with
      | none => rw [htf] at h; simp at h
      | some v =>
        rw [htf] at h
        simp at h
        have hrec := ih v.1 v.2 (by rw [htf])
        rw [← h.2]
        simp only [List.map_cons, Multiset.cons_coe, Multiset.coe_eq_coe]
        have hp : (rest.map Prod.fst).Perm (d :: v.2.map Prod.fst) := by
          rw [← Multiset.coe_eq_coe, ← Multiset.cons_coe]
          exact hrec
        exact (hp.cons e.1).trans (List.Perm.swap d e.1 _)

/-- Acquiring a list of descriptors that is (as a multiset) contained in the
free list's descriptors allocates nothing: the allocation counter is
unchanged. -/
theorem acquire_list_nextId_of_le :
    ∀ (ds : List Nat) (p : TransientResourceCache),
      (↑ds : Multiset Nat) ≤ ↑(p.free_list.map Prod.fst) →
        (p.acquire_list ds).nextId = p.nextId := by
  intro ds
  induction ds with
  | nil => intro p _; rfl
  | cons d ds ih =>
    intro p h
    have hd : d ∈ p.free_list.map Prod.fst := by
      have : d ∈ (↑(p.free_list.map Prod.fst) : Multiset Nat) :=
        Multiset.mem_of_le h (by simp)
      simpa using this
    cases htf : takeFirst d p.free_list with
    | none => exact absurd ((takeFirst_eq_none d p.free_list).1 htf) (by simp [hd])
    | some v =>
      have hms := takeFirst_some_multiset d p.free_list v.1 v.2 (by rw [htf])
      have hrest : (↑ds : Multiset Nat) ≤ ↑(v.2.map Prod.fst) := by
        have h' : d ::ₘ (↑ds : Multiset Nat) ≤ d ::ₘ ↑(v.2.map Prod.fst) := by
          simpa [hms] using h
        exact (Multiset.cons_le_cons_iff d).1 h'
      simp only [TransientResourceCache.acquire_list]
      have hacq : (p.acquire d).2 =
          TransientResourceCache.mk v.2 (p.checked_out ++ [(d, v.1)])
            p.nextId := by
        simp [TransientResourceCache.acquire, htf]
      rw [hacq]
      exact ih _ hrest

/-- The descriptors checked out after acquiring a graph shape are the prior
checkouts followed by the shape itself. -/
theorem acquire_list_checked_out :
    ∀ (ds : List Nat) (p : TransientResourceCache),
      (p.acquire_list ds).checked_out.map Prod.fst =
        p.checked_out.map Prod.fst ++ ds := by
  intro ds
  induction ds with
  | nil => intro p; simp [TransientResourceCache.acquire_list]
  | cons d ds ih =>
    intro p
    rw [TransientResourceCache.acquire_list]
    cases htf : takeFirst d p.free_list with
    | none => simp [TransientResourceCache.acquire, htf, ih]
    | some v => simp [TransientResourceCache.acquire, htf, ih]

/-- **C6**: releasing a generation never deallocates (the allocation
counter is untouched; checked-out entries are only moved to the free
list); acquiring, releasing and re-acquiring an identical descriptor
returns the same physical resource with no new allocation; and running the
same graph shape for a second frame causes no pool growth after the
first. -/
theorem transient_pool_reuse :
    (∀ p : TransientResourceCache,
        p.release_all.nextId = p.nextId ∧
        p.release_all.free_list = p.checked_out ++ p.free_list ∧
        p.release_all.checked_out = []) ∧
    (∀ (p : TransientResourceCache) (d : Nat),
        p.checked_out = [] →
          (((p.acquire d).2.release_all).acquire d).1 = (p.acquire d).1 ∧
          (((p.acquire d).2.release_all).acquire d).2.nextId =
            (p.acquire d).2.nextId) ∧
    (∀ (p : TransientResourceCache) (ds : List Nat),
        ((p.run_frame ds).run_frame ds).nextId = (p.run_frame ds).nextId) := by
  refine ⟨fun p => ⟨rfl, rfl, rfl⟩, ?_, ?_⟩
  · intro p d hco
    cases htf : takeFirst d p.free_list with
    | some v =>
      constructor <;>
        simp [TransientResourceCache.acquire, TransientResourceCache.release_all,
          htf, hco, takeFirst]
    | none =>
      constructor <;>
        simp [TransientResourceCache.acquire, TransientResourceCache.release_all,
          htf, hco, takeFirst]
  · intro p ds
    unfold TransientResourceCache.run_frame
    have hsub : (↑ds : Multiset Nat) ≤
        ↑(((p.acquire_list ds).release_all).free_list.map Prod.fst) := by
      have hfl : ((p.acquire_list ds).release_all).free_list =
          (p.acquire_list ds).checked_out ++ (p.acquire_list ds).free_list := rfl
      rw [hfl]
      rw [List.map_append, acquire_list_checked_out]
      refine Multiset.le_iff_count.2 fun x => ?_
      simp only [Multiset.coe_count, List.count_append]
      omega
    exact acquire_list_nextId_of_le ds _ hsub

/-- Witness for C6 at a concrete pool: acquire descriptor 4 from an empty
pool, release, re-acquire; the same physical resource comes back and the
allocation counter stays at one. -/
theorem transient_pool_reuse_witness :
    ((((TransientResourceCache.mk [] [] 0).acquire 4).2.release_all).acquire
        4).1 = ((TransientResourceCache.mk [] [] 0).acquire 4).1 :=
  (transient_pool_reuse.2.1 (TransientResourceCache.mk [] [] 0) 4 rfl).1

/-- Every command recorded before the render-graph block is the begin, a
barrier on the SDF image, a pipeline bind, a descriptor-set bind, or the
SDF dispatch. -/
theorem draw_frame_head_cmds_shape (r : Renderer) :
    ∀ c ∈ draw_frame_head_cmds r,
      c = Cmd.beginCommandBuffer ∨
      (∃ a b, c = Cmd.imageBarrier r.sdf_img a b) ∨
      (∃ h, c = Cmd.bindPipeline h) ∨
      (∃ s w, c = Cmd.bindDescriptorSet s w) ∨
      (∃ x y z, c = Cmd.dispatch x y z) := by
  intro c hc
  unfold draw_frame_head_cmds at hc
  simp only [List.mem_append, List.mem_cons, List.not_mem_nil, or_false,
    or_assoc] at hc
  rcases hc with h | h | h | h | h | h
  · exact Or.inl h
  · rcases transition_cases
        ⟨r.sdf_img,
          if (r.frame_idx + 1) % 2 ^ 32 = 0 then AccessType.Nothing
          else AccessType.AnyShaderReadSampledImageOrUniformTexelBuffer⟩
        AccessType.ComputeShaderWrite with he | he
    · rw [he] at h; simp at h
    · rw [he] at h
      simp at h
      exact Or.inr (Or.inl ⟨_, _, h⟩)
  · exact Or.inr (Or.inr (Or.inl ⟨_, h⟩))
  · rcases bind_descriptor_set_cases
        (r.pipeline_cache.get_compute
          (if (r.frame_idx + 1) % 2 ^ 32 = 0 then r.gen_empty_sdf
           else r.edit_sdf)).1 0 1 with he | ⟨w, he⟩
    · rw [he] at h; simp at h
    · rw [he] at h
      simp at h
      exact Or.inr (Or.inr (Or.inr (Or.inl ⟨_, _, h⟩)))
  · rcases bind_frame_constants_cases
        (r.pipeline_cache.get_compute
          (if (r.frame_idx + 1) % 2 ^ 32 = 0 then r.gen_empty_sdf
           else r.edit_sdf)).1 with he | he
    · rw [he] at h; simp at h
    · rw [he] at h
      simp at h
      exact Or.inr (Or.inr (Or.inr (Or.inl ⟨_, _, h⟩)))
  · exact Or.inr (Or.inr (Or.inr (Or.inr ⟨_, _, _, h⟩)))

/-- No graph execution, blit, or resource release occurs before the graph
block, and every barrier recorded there is on the SDF image. -/
theorem draw_frame_head_cmds_excludes (r : Renderer) :
    Cmd.rgExecute ∉ draw_frame_head_cmds r ∧
    Cmd.releaseResources ∉ draw_frame_head_cmds r ∧
    (∀ i, Cmd.blit i ∉ draw_frame_head_cmds r) ∧
    (∀ i a b, Cmd.imageBarrier i a b ∈ draw_frame_head_cmds r → i = r.sdf_img) := by
  refine ⟨fun h => ?_, fun h => ?_, fun i h => ?_, fun i a b h => ?_⟩ <;>
    rcases draw_frame_head_cmds_shape r _ h with h1 | ⟨a', b', h1⟩ | ⟨x, h1⟩ |
      ⟨s, w, h1⟩ | ⟨x, y, z, h1⟩ <;>
    simp_all

/-- The SDF dispatch is always recorded. -/
theorem draw_frame_head_cmds_has_dispatch (r : Renderer) :
    Cmd.dispatch (SDF_DIM / 4) (SDF_DIM / 4) (SDF_DIM / 4) ∈
      draw_frame_head_cmds r := by
  unfold draw_frame_head_cmds
  simp

/-- **C1**: after execution, the retired graph exposes the exported
handle's final physical image with its last access type (`get_image`
returns the pair), and the barrier `draw_frame` records after graph
execution transitions that image from exactly the returned access type to
`AnyShaderReadSampledImageOrUniformTexelBuffer`, immediately before the
blit to the swapchain. -/
theorem draw_frame_output_barrier_before_blit
    (r : Renderer) (g : CompiledRenderGraph) (out : Nat)
    (hg : r.compiled_rg = some g) (hout : r.rg_output_tex = some out) :
    ∃ pre post, (r.draw_frame).2 =
      pre ++
        [Cmd.imageBarrier (g.retired.get_image out).1
           (g.retired.get_image out).2
           AccessType.AnyShaderReadSampledImageOrUniformTexelBuffer,
         Cmd.blit (g.retired.get_image out).1] ++ post := by
  refine ⟨draw_frame_head_cmds r ++ [Cmd.rgExecute],
    [Cmd.releaseResources, Cmd.endCommandBuffer, Cmd.submit, Cmd.present], ?_⟩
  simp [Renderer.draw_frame, rg_block_cmds, hg, hout]

/-- Witness for C1: a concrete renderer holding a compiled graph whose
exported handle 0 is image 7 last written by compute. -/
theorem draw_frame_output_barrier_before_blit_witness :
    ∃ pre post, (rendererW.draw_frame).2 =
      pre ++
        [Cmd.imageBarrier (rgW.retired.get_image 0).1
           (rgW.retired.get_image 0).2
           AccessType.AnyShaderReadSampledImageOrUniformTexelBuffer,
         Cmd.blit (rgW.retired.get_image 0).1] ++ post :=
  draw_frame_output_barrier_before_blit rendererW rgW 0 rfl rfl

/-- **C3**: when a compiled graph is executed, the retired graph's
resources are released exactly once, and only after the output-image
barrier and the blit that consume the exported image. -/
theorem release_after_frame_outputs
    (r : Renderer) (g : CompiledRenderGraph) (out : Nat)
    (hg : r.compiled_rg = some g) (hout : r.rg_output_tex = some out) :
    ∃ pre post, (r.draw_frame).2 =
        pre ++
          [Cmd.imageBarrier (g.retired.get_image out).1
             (g.retired.get_image out).2
             AccessType.AnyShaderReadSampledImageOrUniformTexelBuffer,
           Cmd.blit (g.retired.get_image out).1,
           Cmd.releaseResources] ++ post ∧
      Cmd.releaseResources ∉ pre ∧ Cmd.releaseResources ∉ post := by
  refine ⟨draw_frame_head_cmds r ++ [Cmd.rgExecute],
    [Cmd.endCommandBuffer, Cmd.submit, Cmd.present], ?_, ?_, by decide⟩
  · simp [Renderer.draw_frame, rg_block_cmds, hg, hout]
  · simp [List.mem_append, (draw_frame_head_cmds_excludes r).2.1]

/-- Witness for C3 at the same concrete renderer. -/
theorem release_after_frame_outputs_witness :
    ∃ pre post, (rendererW.draw_frame).2 =
        pre ++
          [Cmd.imageBarrier (rgW.retired.get_image 0).1
             (rgW.retired.get_image 0).2
             AccessType.AnyShaderReadSampledImageOrUniformTexelBuffer,
           Cmd.blit (rgW.retired.get_image 0).1,
           Cmd.releaseResources] ++ post ∧
      Cmd.releaseResources ∉ pre ∧ Cmd.releaseResources ∉ post :=
  release_after_frame_outputs rendererW rgW 0 rfl rfl

/-- **C8**: `draw_frame` takes the compiled graph and exported handle out
of the renderer, so both fields are `none` after any call; when either was
already absent (no preceding `prepare_frame`), the frame records no graph
execution, no release, no blit, and no barrier other than on the SDF
image, while the SDF dispatch, submit and present still proceed. -/
theorem draw_frame_consumes_compiled_graph :
    (∀ r : Renderer,
        (r.draw_frame).1.compiled_rg = none ∧
        (r.draw_frame).1.rg_output_tex = none) ∧
    (∀ r : Renderer, r.compiled_rg = none ∨ r.rg_output_tex = none →
        Cmd.rgExecute ∉ (r.draw_frame).2 ∧
        Cmd.releaseResources ∉ (r.draw_frame).2 ∧
        (∀ i, Cmd.blit i ∉ (r.draw_frame).2) ∧
        (∀ i a b, Cmd.imageBarrier i a b ∈ (r.draw_frame).2 → i = r.sdf_img) ∧
        Cmd.dispatch (SDF_DIM / 4) (SDF_DIM / 4) (SDF_DIM / 4) ∈
          (r.draw_frame).2 ∧
        Cmd.submit ∈ (r.draw_frame).2 ∧
        Cmd.present ∈ (r.draw_frame).2) := by
  constructor
  · intro r
    exact ⟨rfl, rfl⟩
  · intro r hyp
    have hrg : (r.draw_frame).2 =
        draw_frame_head_cmds r ++
          [Cmd.endCommandBuffer, Cmd.submit, Cmd.present] := by
      unfold Renderer.draw_frame
      rcases hyp with h | h <;> rw [h] <;>
        cases r.rg_output_tex <;> cases r.compiled_rg <;> simp_all
    rw [hrg]
    have hex := draw_frame_head_cmds_excludes r
    refine ⟨?_, ?_, fun i => ?_, fun i a b hm => ?_, ?_, ?_, ?_⟩
    · simp [List.mem_append, hex.1]
    · simp [List.mem_append, hex.2.1]
    · simp [List.mem_append, hex.2.2.1 i]
    · rw [List.mem_append] at hm
      rcases hm with hm | hm
      · exact hex.2.2.2 i a b hm
      · simp at hm
    · simp [List.mem_append, draw_frame_head_cmds_has_dispatch r]
    · simp
    · simp

/-- Witness for C8: a freshly created renderer (no `prepare_frame`) draws a
frame with no graph execution, while submit still proceeds. -/
theorem draw_frame_consumes_compiled_graph_witness :
    Cmd.rgExecute ∉ ((Renderer.new reflectW 3).draw_frame).2 ∧
    Cmd.submit ∈ ((Renderer.new reflectW 3).draw_frame).2 :=
  ⟨(draw_frame_consumes_compiled_graph.2 (Renderer.new reflectW 3)
      (Or.inl rfl)).1,
   (draw_frame_consumes_compiled_graph.2 (Renderer.new reflectW 3)
      (Or.inl rfl)).2.2.2.2.2.1⟩

/-- **C9**: `Renderer::new` leaves `frame_idx` at `u32::MAX`; `draw_frame`
advances it by one modulo `2^32` (the wrapping add is total, so no panic
at wraparound), so the first call runs with `frame_idx = 0`, binding the
`gen_empty_sdf` clearing pipeline and starting the SDF tracker from
`Nothing` (visible as the recorded `Nothing → ComputeShaderWrite`
barrier). -/
theorem frame_idx_modular_preroll :
    (∀ (reflect : Nat → List (List Nat)) (sdfImg : Nat),
        (Renderer.new reflect sdfImg).frame_idx = 2 ^ 32 - 1) ∧
    (∀ r : Renderer,
        (r.draw_frame).1.frame_idx = (r.frame_idx + 1) % 2 ^ 32) ∧
    (∀ (reflect : Nat → List (List Nat)) (sdfImg : Nat),
        ((Renderer.new reflect sdfImg).draw_frame).1.frame_idx = 0 ∧
        Cmd.bindPipeline (Renderer.new reflect sdfImg).gen_empty_sdf ∈
          ((Renderer.new reflect sdfImg).draw_frame).2 ∧
        Cmd.imageBarrier sdfImg AccessType.Nothing
            AccessType.ComputeShaderWrite ∈
          ((Renderer.new reflect sdfImg).draw_frame).2) := by
  refine ⟨fun reflect sdfImg => rfl, fun r => rfl, fun reflect sdfImg => ?_⟩
  have hwrap : ((2 ^ 32 - 1 : Nat) + 1) % 2 ^ 32 = 0 := by decide
  have hidx : (Renderer.new reflect sdfImg).frame_idx = 2 ^ 32 - 1 := rfl
  refine ⟨?_, ?_, ?_⟩
  · show ((Renderer.new reflect sdfImg).frame_idx + 1) % 2 ^ 32 = 0
    rw [hidx, hwrap]
  · unfold Renderer.draw_frame
    simp only [hidx, hwrap]
    unfold draw_frame_head_cmds
    simp [hidx, hwrap]
  · unfold Renderer.draw_frame
    simp only [hidx, hwrap]
    unfold draw_frame_head_cmds
    simp [hidx, hwrap, LocalImageStateTracker.transition,
      show (Renderer.new reflect sdfImg).sdf_img = sdfImg from rfl]

end Theorems

end Kajiya
